import Mathlib

/-!
Verification of the MAC-address handling and lifecycle sequencing of a small
TAP-device command-line utility (src/src/main.rs).

The development shallowly embeds the program's pure logic:
* `from_str_radix_16` models Rust's `u8::from_str_radix(part, 16)`;
* `splitSep` models `s.split(|c| c == ':' || c == '-')`;
* `parse_mac_address` models the function of the same name;
* `generate_random_mac` models the function of the same name, as a function
  of the six drawn random bytes;
* `resolve_mac`, `show_device_info` and `mainModel` model the `main`
  function's configuration resolution and lifecycle sequencing, with all
  external effects (argument parsing, device creation, the inspection
  command, the interrupt signal) supplied as an explicit environment.
-/

namespace TunMac

/-- The error cases of Rust's integer parsing relevant to `u8::from_str_radix`
with radix 16: empty input, a non-digit character, positive overflow. -/
inductive ParseIntError where
  | empty
  | invalidDigit
  | posOverflow
deriving DecidableEq, Repr

/-- The `Display` rendering of `ParseIntError`, as interpolated by the Rust
code into its error string. -/
def ParseIntError.msg : ParseIntError → String
  | .empty => "cannot parse integer from empty string"
  | .invalidDigit => "invalid digit found in string"
  | .posOverflow => "number too large to fit in target type"

/-- Value of a hexadecimal digit character, as in Rust's `char::to_digit(16)`. -/
def hexDigitVal (c : Char) : Option Nat :=
  if '0' ≤ c ∧ c ≤ '9' then some (c.toNat - 48)
  else if 'a' ≤ c ∧ c ≤ 'f' then some (c.toNat - 97 + 10)
  else if 'A' ≤ c ∧ c ≤ 'F' then some (c.toNat - 65 + 10)
  else none

/-- The digit-accumulation loop of `u8::from_str_radix(_, 16)`: checked
multiply-and-add against the `u8` maximum, failing with `PosOverflow` as soon
as the accumulated value would exceed 255. -/
def goHex : List Char → Nat → Except ParseIntError Nat
  | [], acc => .ok acc
  | c :: rest, acc =>
    match hexDigitVal c with
    | none => .error .invalidDigit
    | some d =>
      if acc * 16 + d > 255 then .error .posOverflow
      else goHex rest (acc * 16 + d)

/-- Model of Rust's `u8::from_str_radix(s, 16)`: an empty string is
`Empty`; a lone `+` is `InvalidDigit`; a leading `+` is stripped; for an
unsigned target a leading `-` is not stripped and fails as a non-digit. -/
def from_str_radix_16 (s : List Char) : Except ParseIntError Nat :=
  match s with
  | [] => .error .empty
  | c :: rest =>
    if c = '+' then
      if rest = [] then .error .invalidDigit else goHex rest 0
    else goHex (c :: rest) 0

/-- The separator predicate of `s.split(|c| c == ':' || c == '-')`. -/
def isSep (c : Char) : Bool := c = ':' || c = '-'

/-- Model of Rust's `str::split` on the separator predicate: adjacent
separators yield empty parts and the empty string yields one empty part. -/
def splitSep : List Char → List (List Char)
  | [] => [[]]
  | c :: rest =>
    if isSep c then [] :: splitSep rest
    else
      match splitSep rest with
      | [] => [[c]]
      | p :: ps => (c :: p) :: ps

/-- The invalid-format error string of `parse_mac_address` (the Rust
`format!` call with the input interpolated). -/
def formatErrMsg (s : String) : String :=
  "无效的MAC地址格式 \x27" ++ (s ++ "\x27。期望的格式是 xx:xx:xx:xx:xx:xx")

/-- The invalid-hex-part error string of `parse_mac_address` (the Rust
`format!` call with the offending part and the numeric error interpolated). -/
def hexErrMsg (part : String) (e : ParseIntError) : String :=
  "无效的十六进制部分 \x27" ++ (part ++ ("\x27: " ++ e.msg))

/-- The per-part loop of `parse_mac_address`: each part is parsed as a
base-16 byte and the first failure aborts with the hex-part error. -/
def parseParts : List (List Char) → Except String (List Nat)
  | [] => .ok []
  | p :: ps =>
    match from_str_radix_16 p with
    | .error e => .error (hexErrMsg (String.mk p) e)
    | .ok b =>
      match parseParts ps with
      | .error e => .error e
      | .ok bs => .ok (b :: bs)

/-- Model of `parse_mac_address`: split on `:` or `-`, require exactly six
parts, then parse each part as a base-16 byte. -/
def parse_mac_address (s : String) : Except String (List Nat) :=
  let parts := splitSep s.data
  if parts.length ≠ 6 then .error (formatErrMsg s)
  else parseParts parts

/-- Model of `generate_random_mac` as a function of the six drawn random
bytes: byte 0 gets the locally-administered bit set (`|= 0x02`) and the
multicast bit cleared (`&= 0xfe`); the remaining bytes pass through. -/
def generate_random_mac (r : List Nat) : List Nat :=
  match r with
  | [] => []
  | r0 :: rest => ((r0 ||| 0x02) &&& 0xfe) :: rest

/-- The lowercase hexadecimal digit character for a value below 16. -/
def hexChar (d : Nat) : Char :=
  if d < 10 then Char.ofNat (48 + d) else Char.ofNat (87 + d)

/-- Two-lowercase-hex-digit rendering of a byte, as the 02x format
specifier in `main` produces for a byte value below 256. -/
def toHex2 (b : Nat) : List Char :=
  [hexChar (b / 16), hexChar (b % 16)]

/-- Joining character groups with `:`, as the `join(":")` in `main`. -/
def joinColon : List (List Char) → List Char
  | [] => []
  | p :: ps => if ps.isEmpty then p else p ++ ':' :: joinColon ps

/-- The colon-joined lowercase-hex rendering of a byte array used by `main`
for logging and, in reverse, fed to `parse_mac_address` for the round-trip. -/
def formatMacStr (m : List Nat) : String :=
  String.mk (joinColon (m.map toHex2))

/-- Severity levels of the two logging macros used by `main`. -/
inductive LogLevel where
  | info
  | warn
deriving DecidableEq, Repr

/-- Outcome of the MAC-resolution `match` in `main`: the resolved byte array
together with the log line and its severity. -/
structure ResolveResult where
  mac : List Nat
  level : LogLevel
  msg : String
deriving DecidableEq, Repr

/-- Model of the `match cli.mac` block of `main`: a user-supplied MAC is used
and logged at informational severity; otherwise a random MAC is generated and
logged at warning severity. `r` carries the six random bytes the generator
would draw. -/
def resolve_mac (cliMac : Option (List Nat)) (r : List Nat) : ResolveResult :=
  match cliMac with
  | some mac =>
    { mac := mac, level := .info,
      msg := "使用命令行提供的MAC地址: " ++ formatMacStr mac }
  | none =>
    let mac := generate_random_mac r
    { mac := mac, level := .warn,
      msg := "未提供MAC地址，已生成随机地址: " ++ formatMacStr mac }

/-- Outcome of invoking the external `ip addr show dev <name>` command:
either the spawn itself fails (e.g. the tool is absent), or the command runs
and reports an exit status together with captured stdout and stderr. -/
inductive CmdOutcome where
  | spawnErr (e : String)
  | ran (success : Bool) (stdout stderr : String)
deriving DecidableEq, Repr

/-- Model of `show_device_info`: a spawn failure is wrapped with context and
returned as an error (which the caller propagates with `?`); a non-zero exit
logs the captured stderr at warning severity and succeeds; a zero exit prints
the captured stdout. Returns the emitted log lines and the printed stdout. -/
def show_device_info (dev_name : String) (cmd : CmdOutcome) :
    Except String (List (LogLevel × String) × Option String) :=
  let header := (LogLevel.info, "--- 执行 \x60ip addr show dev " ++ (dev_name ++ "\x60 ---"))
  let footer := (LogLevel.info, "-------------------------------------")
  match cmd with
  | .spawnErr e =>
    .error ("执行 \x27ip addr show dev " ++ (dev_name ++ ("\x27 命令失败: " ++ e)))
  | .ran success out err =>
    if success then
      .ok ([header, footer], some out)
    else
      .ok ([header,
            (LogLevel.warn, "获取设备 \x27" ++ (dev_name ++ ("\x27 信息失败:\n" ++ err.trim))),
            footer], none)

/-- The command-line arguments as resolved by the argument parser. -/
structure CliArgs where
  name : String
  mtu : Nat
  mac : Option (List Nat)
deriving DecidableEq, Repr

/-- The environment of external outcomes `main` interacts with: argument
parsing (`none` means the parser rejected the arguments and the process exits
before the body runs), the random bytes, device creation, the device-name
query, the inspection command, and the interrupt-signal wait. -/
structure Env where
  cliOk : Option CliArgs
  rand : List Nat
  buildOk : Except String Unit
  devName : Except String String
  ipCmd : CmdOutcome
  ctrlc : Except String Unit
deriving Repr

/-- Observable result of one run of `main`: whether the process exits zero,
how many times the device handle's release action ran, whether execution
reached the signal-wait step, and the emitted log lines. -/
structure MainResult where
  exitZero : Bool
  dropped : Nat
  reachedWait : Bool
  logs : List (LogLevel × String)
deriving DecidableEq, Repr

/-- Model of `main`: resolve the MAC, create the device (fatal on error, no
handle to release), query the name, run the inspection step (a spawn failure
propagates through `?`), wait for the interrupt, and return. On every path
after creation succeeds the device handle is dropped exactly once when it
goes out of scope. -/
def mainModel (env : Env) : MainResult :=
  match env.cliOk with
  | none => { exitZero := false, dropped := 0, reachedWait := false, logs := [] }
  | some cli =>
    let r := resolve_mac cli.mac env.rand
    let logs0 := [(r.level, r.msg),
                  (LogLevel.info, "正在创建TAP设备..."),
                  (LogLevel.info, "  名称: " ++ cli.name),
                  (LogLevel.info, "  MTU: " ++ toString cli.mtu)]
    match env.buildOk with
    | .error _ => { exitZero := false, dropped := 0, reachedWait := false, logs := logs0 }
    | .ok _ =>
      match env.devName with
      | .error _ => { exitZero := false, dropped := 1, reachedWait := false, logs := logs0 }
      | .ok nm =>
        let logs1 := logs0 ++ [(LogLevel.info, "TAP设备 \x27" ++ (nm ++ "\x27 创建成功!"))]
        match show_device_info nm env.ipCmd with
        | .error _ =>
          { exitZero := false, dropped := 1, reachedWait := false, logs := logs1 }
        | .ok (siLogs, _) =>
          let logs2 := logs1 ++ siLogs ++ [(LogLevel.info, "设备已启动，按 Ctrl+C 退出。")]
          match env.ctrlc with
          | .error _ =>
            { exitZero := false, dropped := 1, reachedWait := true, logs := logs2 }
          | .ok _ =>
            { exitZero := true, dropped := 1, reachedWait := true,
              logs := logs2 ++ [(LogLevel.info, "接收到终止信号，正在关闭程序...")] }

/-- Concrete command-line arguments used to instantiate the lifecycle model. -/
def cliBase : CliArgs :=
  { name := "tap0", mtu := 1500, mac := none }

/-- A fully successful environment for `mainModel`; variations are built from
it by record update. -/
def envBase : Env :=
  { cliOk := some cliBase, rand := [1, 2, 3, 4, 5, 6],
    buildOk := .ok (), devName := .ok "tap0",
    ipCmd := .ran true "5: tap0: <BROADCAST,MULTICAST> mtu 1500" "",
    ctrlc := .ok () }

instance {ε α : Type} [DecidableEq ε] [DecidableEq α] : DecidableEq (Except ε α) :=
  fun a b =>
    match a, b with
    | .ok x, .ok y =>
      if h : x = y then .isTrue (by rw [h]) else .isFalse (fun hh => by cases hh; exact h rfl)
    | .error x, .error y =>
      if h : x = y then .isTrue (by rw [h]) else .isFalse (fun hh => by cases hh; exact h rfl)
    | .ok _, .error _ => .isFalse (fun hh => by cases hh)
    | .error _, .ok _ => .isFalse (fun hh => by cases hh)

theorem goHex_le (l : List Char) (acc : Nat) (hacc : acc ≤ 255) (v : Nat)
    (h : goHex l acc = .ok v) : v ≤ 255 := by
  induction l generalizing acc with
  | nil =>
    rw [goHex] at h
    exact (Except.ok.inj h) ▸ hacc
  | cons c rest ih =>
    rw [goHex] at h
    split at h
    · exact Except.noConfusion h
    · split at h
      · exact Except.noConfusion h
      · exact ih _ (by omega) h

theorem from_str_radix_16_le (s : List Char) (v : Nat)
    (h : from_str_radix_16 s = .ok v) : v ≤ 255 := by
  cases s with
  | nil =>
    rw [from_str_radix_16] at h
    exact Except.noConfusion h
  | cons c rest =>
    rw [from_str_radix_16] at h
    split at h
    · split at h
      · exact Except.noConfusion h
      · exact goHex_le _ _ (by omega) _ h
    · exact goHex_le _ _ (by omega) _ h

theorem parseParts_ok_shape (ps : List (List Char)) (bs : List Nat)
    (h : parseParts ps = .ok bs) :
    bs.length = ps.length ∧ ∀ b ∈ bs, b < 256 := by
  induction ps generalizing bs with
  | nil =>
    rw [parseParts] at h
    cases Except.ok.inj h
    simp
  | cons p rest ih =>
    rw [parseParts] at h
    split at h
    · exact Except.noConfusion h
    next b hb =>
      split at h
      · exact Except.noConfusion h
      next bs0 hbs0 =>
        cases Except.ok.inj h
        obtain ⟨hl, hmem⟩ := ih bs0 hbs0
        refine ⟨by simp [hl], ?_⟩
        intro x hx
        rcases List.mem_cons.mp hx with hx | hx
        · subst hx
          exact Nat.lt_succ_of_le (from_str_radix_16_le p x hb)
        · exact hmem x hx

set_option maxRecDepth 8000 in
theorem from_str_radix_16_toHex2_fin :
    ∀ b : Fin 256, from_str_radix_16 (toHex2 b.val) = .ok b.val := by decide

theorem from_str_radix_16_toHex2 (b : Nat) (hb : b < 256) :
    from_str_radix_16 (toHex2 b) = .ok b :=
  from_str_radix_16_toHex2_fin ⟨b, hb⟩

theorem hexChar_not_sep_fin : ∀ d : Fin 16, isSep (hexChar d.val) = false := by decide

theorem toHex2_sepfree (b : Nat) (hb : b < 256) : ∀ c ∈ toHex2 b, isSep c = false := by
  intro c hc
  rcases List.mem_cons.mp hc with hc | hc
  · subst hc
    exact hexChar_not_sep_fin ⟨b / 16, by omega⟩
  · rcases List.mem_singleton.mp hc with rfl
    exact hexChar_not_sep_fin ⟨b % 16, Nat.mod_lt _ (by omega)⟩

theorem splitSep_sepfree (p : List Char) (hp : ∀ c ∈ p, isSep c = false) :
    splitSep p = [p] := by
  induction p with
  | nil => rfl
  | cons c p' ih =>
    have hc := hp c (List.mem_cons_self c p')
    rw [splitSep, ih (fun x hx => hp x (List.mem_cons_of_mem c hx))]
    simp [hc]

theorem splitSep_append (p rest : List Char) (hp : ∀ c ∈ p, isSep c = false) :
    splitSep (p ++ ':' :: rest) = p :: splitSep rest := by
  induction p with
  | nil =>
    rw [List.nil_append, splitSep]
    simp [isSep]
  | cons c p' ih =>
    have hc := hp c (List.mem_cons_self c p')
    rw [List.cons_append, splitSep, ih (fun x hx => hp x (List.mem_cons_of_mem c hx))]
    simp [hc]

theorem splitSep_joinColon (parts : List (List Char)) (hne : parts ≠ [])
    (hp : ∀ p ∈ parts, ∀ c ∈ p, isSep c = false) :
    splitSep (joinColon parts) = parts := by
  induction parts with
  | nil => exact absurd rfl hne
  | cons p ps ih =>
    cases ps with
    | nil =>
      rw [joinColon]
      simpa using splitSep_sepfree p (hp p (List.mem_cons_self p []))
    | cons q qs =>
      rw [joinColon]
      simp only [List.isEmpty_cons, if_false, Bool.false_eq_true]
      rw [splitSep_append p _ (hp p (List.mem_cons_self p _)),
        ih (by simp) (fun x hx c hc => hp x (List.mem_cons_of_mem p hx) c hc)]

theorem parseParts_map_toHex2 (m : List Nat) (hb : ∀ b ∈ m, b < 256) :
    parseParts (m.map toHex2) = .ok m := by
  induction m with
  | nil => rfl
  | cons b m' ih =>
    rw [List.map_cons, parseParts, from_str_radix_16_toHex2 b (hb b (List.mem_cons_self b m')),
      ih (fun x hx => hb x (List.mem_cons_of_mem b hx))]

theorem strAppend_assoc (a b c : String) : a ++ b ++ c = a ++ (b ++ c) := by
  rcases a with ⟨a⟩
  rcases b with ⟨b⟩
  rcases c with ⟨c⟩
  show String.mk (a ++ b ++ c) = String.mk (a ++ (b ++ c))
  rw [List.append_assoc]

theorem parseParts_first_error (good : List (List Char)) (bad : List Char)
    (rest : List (List Char)) (e : ParseIntError)
    (hgood : ∀ p ∈ good, ∃ b, from_str_radix_16 p = .ok b)
    (hbad : from_str_radix_16 bad = .error e) :
    parseParts (good ++ bad :: rest) = .error (hexErrMsg (String.mk bad) e) := by
  induction good with
  | nil =>
    rw [List.nil_append, parseParts, hbad]
  | cons p good2 ih =>
    obtain ⟨b, hb⟩ := hgood p (List.mem_cons_self p good2)
    rw [List.cons_append, parseParts, hb,
      ih (fun x hx => hgood x (List.mem_cons_of_mem p hx))]

/-- C2: round-trip of parsing and formatting — for every 6-byte array `m`
(each byte below 256), parsing the colon-joined two-lowercase-hex-digit
rendering of `m` returns exactly `m`. -/
theorem parse_format_roundtrip (m : List Nat) (hlen : m.length = 6)
    (hb : ∀ b ∈ m, b < 256) :
    parse_mac_address (formatMacStr m) = .ok m := by
  have hne : m.map toHex2 ≠ [] := by
    intro h
    have := congrArg List.length h
    simp [hlen] at this
  have hsf : ∀ p ∈ m.map toHex2, ∀ c ∈ p, isSep c = false := by
    intro p hp
    obtain ⟨b, hbm, rfl⟩ := List.mem_map.mp hp
    exact toHex2_sepfree b (hb b hbm)
  have hsplit : splitSep (formatMacStr m).data = m.map toHex2 :=
    splitSep_joinColon _ hne hsf
  unfold parse_mac_address
  simp only [hsplit, List.length_map, hlen]
  rw [if_neg (by simp)]
  exact parseParts_map_toHex2 m hb

/-- Witness for C2 at the concrete byte array `[0, 1, 2, 171, 255, 16]`. -/
theorem parse_format_roundtrip_witness :
    ([0, 1, 2, 171, 255, 16] : List Nat).length = 6 ∧
    (∀ b ∈ ([0, 1, 2, 171, 255, 16] : List Nat), b < 256) ∧
    parse_mac_address (formatMacStr [0, 1, 2, 171, 255, 16]) =
      .ok [0, 1, 2, 171, 255, 16] :=
  ⟨by decide, by decide, parse_format_roundtrip _ (by decide) (by decide)⟩

/-- C3: an input that does not split into exactly 6 parts yields the
invalid-format error, and the parser is total — every string yields either
an error or a 6-byte array with every byte below 256 (no panic path). -/
theorem parse_wrong_count_total (s : String) :
    ((splitSep s.data).length ≠ 6 → parse_mac_address s = .error (formatErrMsg s)) ∧
    ((∃ e, parse_mac_address s = .error e) ∨
      ∃ m, parse_mac_address s = .ok m ∧ m.length = 6 ∧ ∀ b ∈ m, b < 256) := by
  constructor
  · intro h
    unfold parse_mac_address
    rw [if_pos h]
  · by_cases h : (splitSep s.data).length = 6
    · cases hp : parseParts (splitSep s.data) with
      | error e =>
        left
        exact ⟨e, by unfold parse_mac_address; rw [if_neg (by simp [h]), hp]⟩
      | ok m =>
        right
        obtain ⟨hl, hbs⟩ := parseParts_ok_shape _ _ hp
        exact ⟨m, by unfold parse_mac_address; rw [if_neg (by simp [h]), hp],
          by rw [hl, h], hbs⟩
    · left
      exact ⟨formatErrMsg s, by unfold parse_mac_address; rw [if_pos h]⟩

/-- Witness for C3 at the concrete input `"aa:bb"` (2 parts). -/
theorem parse_wrong_count_total_witness :
    (splitSep "aa:bb".data).length ≠ 6 ∧
    parse_mac_address "aa:bb" = .error (formatErrMsg "aa:bb") :=
  ⟨by decide, (parse_wrong_count_total "aa:bb").1 (by decide)⟩

/-- C4: when the input splits into exactly 6 parts and some part fails to
parse as a base-16 byte, the result is an error whose message carries the
first offending part verbatim (as a substring between a fixed head and
tail). -/
theorem parse_error_carries_offender (s : String) (good : List (List Char))
    (bad : List Char) (rest : List (List Char)) (e : ParseIntError)
    (hsplit : splitSep s.data = good ++ bad :: rest)
    (hlen : (good ++ bad :: rest).length = 6)
    (hgood : ∀ p ∈ good, ∃ b, from_str_radix_16 p = .ok b)
    (hbad : from_str_radix_16 bad = .error e) :
    parse_mac_address s = .error (hexErrMsg (String.mk bad) e) ∧
    ∃ pre suf, hexErrMsg (String.mk bad) e = pre ++ String.mk bad ++ suf := by
  constructor
  · unfold parse_mac_address
    rw [hsplit, if_neg (by simp [hlen]),
      parseParts_first_error good bad rest e hgood hbad]
  · refine ⟨"无效的十六进制部分 \x27", "\x27: " ++ e.msg, ?_⟩
    rw [hexErrMsg, strAppend_assoc]

/-- Witness for C4 at the concrete input `"zz:00:00:00:00:00"` whose first
part is not hexadecimal. -/
theorem parse_error_carries_offender_witness :
    splitSep "zz:00:00:00:00:00".data =
      [] ++ ['z', 'z'] :: [['0', '0'], ['0', '0'], ['0', '0'], ['0', '0'], ['0', '0']] ∧
    from_str_radix_16 ['z', 'z'] = .error .invalidDigit ∧
    parse_mac_address "zz:00:00:00:00:00" =
      .error (hexErrMsg (String.mk ['z', 'z']) .invalidDigit) :=
  ⟨by decide, by decide,
    (parse_error_carries_offender "zz:00:00:00:00:00" []
      ['z', 'z'] [['0', '0'], ['0', '0'], ['0', '0'], ['0', '0'], ['0', '0']]
      .invalidDigit (by decide) (by decide) (by intro p hp; cases hp) (by decide)).1⟩

/-- C5: as a function of the six drawn random bytes, `generate_random_mac`
returns byte 0 transformed by `| 0x02` then `& 0xfe` and passes bytes 1–5
through; byte 0 of the result always has bit 0x02 set, bit 0x01 cleared,
and remains a valid byte; there is no failure case. -/
theorem generate_random_mac_spec (r0 r1 r2 r3 r4 r5 : Nat) :
    generate_random_mac [r0, r1, r2, r3, r4, r5] =
      ((r0 ||| 0x02) &&& 0xfe) :: [r1, r2, r3, r4, r5] ∧
    Nat.testBit ((r0 ||| 0x02) &&& 0xfe) 1 = true ∧
    Nat.testBit ((r0 ||| 0x02) &&& 0xfe) 0 = false ∧
    (r0 ||| 0x02) &&& 0xfe < 256 := by
  have h1 : Nat.testBit 2 1 = true := by decide
  have h2 : Nat.testBit 254 1 = true := by decide
  have h3 : Nat.testBit 254 0 = false := by decide
  refine ⟨rfl, ?_, ?_, ?_⟩
  · simp [Nat.testBit_land, Nat.testBit_lor, h1, h2]
  · simp [Nat.testBit_land, h3]
  · exact Nat.lt_of_le_of_lt Nat.and_le_right (by norm_num)

/-- C9: the parser is more lenient than the canonical `xx:xx:xx:xx:xx:xx`
shape — single-digit groups, longer groups whose value still fits a byte,
and freely mixed `:`/`-` separators are all accepted with the corresponding
byte values. -/
theorem parse_lenient_inputs :
    parse_mac_address "1:2:3:4:5:6" = .ok [1, 2, 3, 4, 5, 6] ∧
    parse_mac_address "0aa:0:0:0:0:0" = .ok [170, 0, 0, 0, 0, 0] ∧
    parse_mac_address "aa-bb:cc-dd:ee-ff" = .ok [170, 187, 204, 221, 238, 255] :=
  ⟨by rfl, by rfl, by rfl⟩

/-- C10: a trailing separator yields six parts with an empty last part, so
the length check passes and the result is the invalid-hex-part error for the
empty group, not the invalid-format error. -/
theorem parse_trailing_separator_hex_error :
    (splitSep "aa:bb:cc:dd:ee:".data).length = 6 ∧
    parse_mac_address "aa:bb:cc:dd:ee:" = .error (hexErrMsg "" .empty) ∧
    hexErrMsg "" .empty ≠ formatErrMsg "aa:bb:cc:dd:ee:" :=
  ⟨by decide, by rfl, by decide⟩

/-- C1 counterexample: when the inspection command cannot be spawned (tool
absent), the model of `main` does NOT proceed to the wait step and the
process does NOT exit successfully — the spawn error is propagated through
`?`, refuting the claim that every non-success outcome of the inspection
step is non-fatal. -/
theorem inspection_spawn_failure_fatal :
    (mainModel { envBase with
      ipCmd := .spawnErr "No such file or directory (os error 2)" }).reachedWait = false ∧
    (mainModel { envBase with
      ipCmd := .spawnErr "No such file or directory (os error 2)" }).exitZero = false :=
  ⟨rfl, rfl⟩

/-- C1 amended: if the inspection command runs and exits non-zero, `main`
logs the captured stderr at warning severity and still proceeds to the wait
step; only a spawn failure (tool absent) is propagated as an error. -/
theorem inspection_nonzero_exit_nonfatal (env : Env) (cli : CliArgs)
    (nm out err : String)
    (hcli : env.cliOk = some cli) (hbuild : env.buildOk = .ok ())
    (hname : env.devName = .ok nm) (hcmd : env.ipCmd = .ran false out err) :
    (mainModel env).reachedWait = true ∧
    (LogLevel.warn, "获取设备 \x27" ++ (nm ++ ("\x27 信息失败:\n" ++ err.trim)))
      ∈ (mainModel env).logs := by
  obtain ⟨cliOk, rand, buildOk, devName, ipCmd, ctrlc⟩ := env
  dsimp only at hcli hbuild hname hcmd
  subst hcli hbuild hname hcmd
  cases ctrlc <;> simp [mainModel, show_device_info]

/-- Witness for the amended C1 at a concrete environment whose inspection
command exits non-zero. -/
theorem inspection_nonzero_exit_nonfatal_witness :
    (mainModel { envBase with
      ipCmd := .ran false "" "Device \x22tap0\x22 does not exist." }).reachedWait = true ∧
    (LogLevel.warn,
      "获取设备 \x27" ++ ("tap0" ++ ("\x27 信息失败:\n" ++
        ("Device \x22tap0\x22 does not exist.").trim)))
      ∈ (mainModel { envBase with
          ipCmd := .ran false "" "Device \x22tap0\x22 does not exist." }).logs :=
  inspection_nonzero_exit_nonfatal _ cliBase "tap0" ""
    "Device \x22tap0\x22 does not exist." rfl rfl rfl rfl

/-- C6: MAC resolution rule — a present, successfully parsed `--mac` value
is used as-is and logged as command-line supplied at informational
severity; an absent `--mac` resolves to `generate_random_mac` and is logged
at warning severity. -/
theorem resolve_mac_rule :
    (∀ s m r, parse_mac_address s = .ok m →
      (resolve_mac (some m) r).mac = m ∧
      (resolve_mac (some m) r).level = .info ∧
      (resolve_mac (some m) r).msg = "使用命令行提供的MAC地址: " ++ formatMacStr m) ∧
    (∀ r, (resolve_mac none r).mac = generate_random_mac r ∧
      (resolve_mac none r).level = .warn ∧
      (resolve_mac none r).msg =
        "未提供MAC地址，已生成随机地址: " ++ formatMacStr (generate_random_mac r)) :=
  ⟨fun _ _ _ _ => ⟨rfl, rfl, rfl⟩, fun _ => ⟨rfl, rfl, rfl⟩⟩

/-- Witness for C6 at the concrete option string `"0a:0b:0c:0d:0e:0f"`. -/
theorem resolve_mac_rule_witness :
    parse_mac_address "0a:0b:0c:0d:0e:0f" = .ok [10, 11, 12, 13, 14, 15] ∧
    (resolve_mac (some [10, 11, 12, 13, 14, 15]) [1, 2, 3, 4, 5, 6]).mac =
      [10, 11, 12, 13, 14, 15] ∧
    (resolve_mac (some [10, 11, 12, 13, 14, 15]) [1, 2, 3, 4, 5, 6]).level = .info :=
  ⟨by rfl,
    (resolve_mac_rule.1 "0a:0b:0c:0d:0e:0f" [10, 11, 12, 13, 14, 15]
      [1, 2, 3, 4, 5, 6] (by rfl)).1,
    (resolve_mac_rule.1 "0a:0b:0c:0d:0e:0f" [10, 11, 12, 13, 14, 15]
      [1, 2, 3, 4, 5, 6] (by rfl)).2.1⟩

/-- C7: exit behaviour — argument-parse failure and device-creation failure
both end the process with a non-zero exit and no release of any device
handle; the interrupt-triggered shutdown on the fully successful path ends
with exit code zero. -/
theorem main_exit_behaviour (env : Env) :
    (env.cliOk = none →
      (mainModel env).exitZero = false ∧ (mainModel env).dropped = 0) ∧
    (∀ cli e, env.cliOk = some cli → env.buildOk = .error e →
      (mainModel env).exitZero = false ∧ (mainModel env).dropped = 0) ∧
    (∀ cli nm flag out err, env.cliOk = some cli → env.buildOk = .ok () →
      env.devName = .ok nm → env.ipCmd = .ran flag out err → env.ctrlc = .ok () →
      (mainModel env).exitZero = true ∧ (mainModel env).dropped = 1) := by
  obtain ⟨cliOk, rand, buildOk, devName, ipCmd, ctrlc⟩ := env
  refine ⟨?_, ?_, ?_⟩
  · intro h
    dsimp only at h
    subst h
    exact ⟨rfl, rfl⟩
  · intro cli e h1 h2
    dsimp only at h1 h2
    subst h1 h2
    exact ⟨rfl, rfl⟩
  · intro cli nm flag out err h1 h2 h3 h4 h5
    dsimp only at h1 h2 h3 h4 h5
    subst h1 h2 h3 h4 h5
    cases flag <;> exact ⟨rfl, rfl⟩

/-- Witness for C7 at three concrete environments: argument-parse failure,
device-creation failure, and the fully successful interrupt-shutdown run. -/
theorem main_exit_behaviour_witness :
    ((mainModel { envBase with cliOk := none }).exitZero = false ∧
      (mainModel { envBase with cliOk := none }).dropped = 0) ∧
    ((mainModel { envBase with buildOk := .error "Operation not permitted" }).exitZero = false ∧
      (mainModel { envBase with buildOk := .error "Operation not permitted" }).dropped = 0) ∧
    (mainModel envBase).exitZero = true :=
  ⟨(main_exit_behaviour { envBase with cliOk := none }).1 rfl,
    (main_exit_behaviour { envBase with buildOk := .error "Operation not permitted" }).2.1
      cliBase "Operation not permitted" rfl rfl,
    ((main_exit_behaviour envBase).2.2 cliBase "tap0" true
      "5: tap0: <BROADCAST,MULTICAST> mtu 1500" "" rfl rfl rfl rfl rfl).1⟩

/-- C8: guaranteed release — on every path of the model after device
creation succeeds (normal shutdown, signal-facility failure, name-query
failure, inspection spawn failure), the device handle's release action runs
exactly once, with no explicit teardown call in the program. -/
theorem device_released_exactly_once (env : Env) (cli : CliArgs)
    (hcli : env.cliOk = some cli) (hbuild : env.buildOk = .ok ()) :
    (mainModel env).dropped = 1 := by
  obtain ⟨cliOk, rand, buildOk, devName, ipCmd, ctrlc⟩ := env
  dsimp only at hcli hbuild
  subst hcli hbuild
  cases devName with
  | error e => rfl
  | ok nm =>
    cases ipCmd with
    | spawnErr e => rfl
    | ran flag out err => cases flag <;> cases ctrlc <;> rfl

/-- Witness for C8 at a concrete environment whose signal wait fails after
creation succeeded (an early error-return path). -/
theorem device_released_exactly_once_witness :
    (mainModel { envBase with ctrlc := .error "signal handler failed" }).dropped = 1 :=
  device_released_exactly_once { envBase with ctrlc := .error "signal handler failed" }
    cliBase rfl rfl

end TunMac
